import Mathlib

/-!
Verification development for the BytematicCloud backend's access-control,
quota, sharing and delivery logic. The definitions are shallow embeddings of
the Express route handlers in `src/routes/files.js`, the folder routes, the
permission middleware in `src/middleware/auth.js`, and the Redis cache layer
in `src/config/redis.js`. SQL queries are embedded as list operations over a
record-per-row database model; JavaScript numbers that hold byte counts are
modelled as `Int`; external blob-store calls are modelled by an explicit
outcome parameter.
-/

namespace ByteCloud

/-- permission_type values stored in the permissions table
(validated to be one of view/create/edit by the share route). -/
inductive PermissionType
  | view
  | create
  | edit
deriving DecidableEq, Repr

/-- The access_level column computed by the routes' CASE expression:
'owner' for the row owner, otherwise the joined grant's permission_type.
`AccessLevel.none` stands for the denied/absent case (the SQL row is
filtered out and the route answers 404/403). -/
inductive AccessLevel
  | owner
  | edit
  | create
  | view
  | none
deriving DecidableEq, Repr

/-- A stored permission_type read as an access level. -/
def PermissionType.toAccess : PermissionType → AccessLevel
  | .view => AccessLevel.view
  | .create => AccessLevel.create
  | .edit => AccessLevel.edit

/-- Row of the users table (the columns the embedded routes read/write). -/
structure UserRow where
  id : Nat
  storage_quota : Int
  storage_used : Int
deriving DecidableEq, Repr

/-- Row of the folders table. -/
structure FolderRow where
  id : Nat
  user_id : Nat
  parent_folder_id : Option Nat
deriving DecidableEq, Repr

/-- Row of the files table (columns used by the embedded routes). -/
structure FileRow where
  id : Nat
  user_id : Nat
  folder_id : Option Nat
  original_name : String
  mime_type : String
  size : Int
  is_public : Bool
  public_share_token : Option String
  download_count : Int
deriving DecidableEq, Repr

/-- Row of the permissions table: one grant of a folder to a user. -/
structure PermissionRow where
  folder_id : Nat
  shared_with_user_id : Nat
  permission_type : PermissionType
deriving DecidableEq, Repr

/-- Row of the coupons table. -/
structure CouponRow where
  id : Nat
  code : String
  name : String
  is_active : Bool
  expires_at : Option Int
  max_uses : Int
  current_uses : Int
  storage_bonus : Int
deriving DecidableEq, Repr

/-- Row of the coupon_redemptions table. -/
structure RedemptionRow where
  user_id : Nat
  coupon_id : Nat
  storage_granted : Int
deriving DecidableEq, Repr

/-- The relational store. -/
structure Db where
  users : List UserRow
  folders : List FolderRow
  files : List FileRow
  permissions : List PermissionRow
  coupons : List CouponRow
  coupon_redemptions : List RedemptionRow
deriving DecidableEq, Repr

/-- SELECT permission_type FROM permissions WHERE folder_id = $1 AND
shared_with_user_id = $2 (first row, as the routes use rows[0]). -/
def grantFor (perms : List PermissionRow) (folderId uid : Nat) : Option PermissionRow :=
  perms.find? (fun p => p.folder_id == folderId && p.shared_with_user_id == uid)

/-- LEFT JOIN permissions p ON f.id = p.folder_id AND p.shared_with_user_id = $1
for a single folder row: the unmatched row pairs with no grant. -/
def folderPermJoin (perms : List PermissionRow) (f : FolderRow) (uid : Nat) :
    List (FolderRow × Option PermissionRow) :=
  match perms.filter (fun p => p.folder_id == f.id && p.shared_with_user_id == uid) with
  | [] => [(f, Option.none)]
  | ms => ms.map (fun p => (f, some p))

/-- WHERE (f.user_id = $1 OR p.shared_with_user_id = $1) on a joined folder row
(the second disjunct is NULL, hence false, when no grant was joined). -/
def folderRowVisible (uid : Nat) (r : FolderRow × Option PermissionRow) : Bool :=
  r.1.user_id == uid ||
    (match r.2 with
     | some p => p.shared_with_user_id == uid
     | Option.none => false)

/-- CASE WHEN f.user_id = $1 THEN 'owner' ELSE p.permission_type END on a
joined folder row (NULL when neither applies). -/
def folderRowCase (uid : Nat) (r : FolderRow × Option PermissionRow) : Option AccessLevel :=
  if r.1.user_id == uid then some AccessLevel.owner
  else r.2.map (fun p => p.permission_type.toAccess)

/-- The SELECT of GET /folders/:folderId (part_002 lines 104-115), restricted to
the columns that matter here: the folder row with its computed access_level,
or no row (the route then answers 404). -/
def sqlGetFolder (db : Db) (uid fid : Nat) : Option (FolderRow × Option AccessLevel) :=
  ((((db.folders.filter (fun f => f.id == fid)).flatMap
      (fun f => folderPermJoin db.permissions f uid)).filter
      (folderRowVisible uid)).map
      (fun r => (r.1, folderRowCase uid r))).head?

/-- The access level the caller observes on GET /folders/:folderId: the computed
access_level of the returned row, and `AccessLevel.none` when the query returns
no row (the route's 404 "Folder not found or access denied"). -/
def folderAccessLevel (db : Db) (uid fid : Nat) : AccessLevel :=
  match sqlGetFolder db uid fid with
  | some (_, some a) => a
  | some (_, Option.none) => AccessLevel.none
  | Option.none => AccessLevel.none

/-- The same resolution written directly over one folder row: owner short
circuit, else the stored grant keyed (folder, caller), else none. Used as the
compact form of the SQL pipeline in the route embeddings below. -/
def folderAccess (perms : List PermissionRow) (f : FolderRow) (uid : Nat) : AccessLevel :=
  if f.user_id == uid then AccessLevel.owner
  else
    match grantFor perms f.id uid with
    | some p => p.permission_type.toAccess
    | Option.none => AccessLevel.none

/-- LEFT JOIN permissions p ON f.folder_id = p.folder_id AND
p.shared_with_user_id = $1 for a single file row; a NULL folder_id joins
nothing (SQL NULL never equals). -/
def filePermJoin (perms : List PermissionRow) (f : FileRow) (uid : Nat) :
    List (FileRow × Option PermissionRow) :=
  match perms.filter (fun p => f.folder_id == some p.folder_id && p.shared_with_user_id == uid) with
  | [] => [(f, Option.none)]
  | ms => ms.map (fun p => (f, some p))

/-- WHERE (f.user_id = $1 OR p.shared_with_user_id = $1) on a joined file row. -/
def fileRowVisible (uid : Nat) (r : FileRow × Option PermissionRow) : Bool :=
  r.1.user_id == uid ||
    (match r.2 with
     | some p => p.shared_with_user_id == uid
     | Option.none => false)

/-- CASE WHEN f.user_id = $1 THEN 'owner' ELSE p.permission_type END on a
joined file row. -/
def fileRowCase (uid : Nat) (r : FileRow × Option PermissionRow) : Option AccessLevel :=
  if r.1.user_id == uid then some AccessLevel.owner
  else r.2.map (fun p => p.permission_type.toAccess)

/-- The SELECT shared by GET /files/:fileId, the download/view/delete routes and
the bulk routes (files.js lines 392-398 and alike): the file row with its
access_level, or no row. -/
def sqlGetFile (db : Db) (uid fid : Nat) : Option (FileRow × Option AccessLevel) :=
  ((((db.files.filter (fun f => f.id == fid)).flatMap
      (fun f => filePermJoin db.permissions f uid)).filter
      (fileRowVisible uid)).map
      (fun r => (r.1, fileRowCase uid r))).head?

/-- The access level the caller observes on a single file: the returned row's
access_level, with `AccessLevel.none` for the deny/404 case. -/
def fileAccessLevel (db : Db) (uid fid : Nat) : AccessLevel :=
  match sqlGetFile db uid fid with
  | some (_, some a) => a
  | some (_, Option.none) => AccessLevel.none
  | Option.none => AccessLevel.none

/-- Compact form of the file access computation over one row: file ownership
short circuits to owner; otherwise the containing folder's stored grant
applies; a file without a folder carries no grant at all. -/
def fileAccess (perms : List PermissionRow) (f : FileRow) (uid : Nat) : AccessLevel :=
  if f.user_id == uid then AccessLevel.owner
  else
    match f.folder_id with
    | some fid =>
        (match grantFor perms fid uid with
         | some p => p.permission_type.toAccess
         | Option.none => AccessLevel.none)
    | Option.none => AccessLevel.none

/-- Outcome of an external Backblaze call as observed by a route handler:
either the awaited promise resolved, or it threw. -/
inductive BlobOutcome
  | success
  | failure
deriving DecidableEq, Repr

/-- UPDATE users SET storage_used = storage_used + $1 WHERE id = $2 (also
used with a negative delta for the decrement form). -/
def updateUsed (users : List UserRow) (uid : Nat) (delta : Int) : List UserRow :=
  users.map (fun u =>
    if u.id == uid then { u with storage_used := u.storage_used + delta } else u)

/-- The storage_used column of the first user row with the given id. -/
def usedOf (db : Db) (uid : Nat) : Option Int :=
  (db.users.find? (fun u => u.id == uid)).map (fun u => u.storage_used)

/-- The storage_quota column of the first user row with the given id. -/
def quotaOf (db : Db) (uid : Nat) : Option Int :=
  (db.users.find? (fun u => u.id == uid)).map (fun u => u.storage_quota)

/-- Response outcome of POST /upload. -/
inductive UploadResult
  | folderNotFound
  | insufficientPermission
  | userNotFound
  | quotaExceeded
  | uploadFailed
  | created (fileId : Nat)
deriving DecidableEq, Repr

/-- The folder gate of POST /upload (files.js lines 247-268): the folder must
exist, and a non-owner needs a create or edit grant on it. -/
def uploadFolderGate (db : Db) (uid folderId : Nat) : Option UploadResult :=
  match db.folders.find? (fun f => f.id == folderId) with
  | Option.none => some UploadResult.folderNotFound
  | some f =>
    if f.user_id == uid then Option.none
    else
      match grantFor db.permissions folderId uid with
      | some p =>
          if p.permission_type == PermissionType.create
              || p.permission_type == PermissionType.edit
          then Option.none
          else some UploadResult.insufficientPermission
      | Option.none => some UploadResult.insufficientPermission

/-- POST /upload (files.js lines 238-353): folder gate, then quota check on
the persisted used value, then the blob store upload; the row insert and the
storage_used increment run only after the blob upload resolved (a thrown
upload reaches the route's catch with no database write). -/
def uploadFile (db : Db) (uid : Nat) (folder_id : Option Nat) (newId : Nat)
    (original_name mime : String) (size : Int) (blob : BlobOutcome) : UploadResult × Db :=
  match (match folder_id with
         | some fid => uploadFolderGate db uid fid
         | Option.none => Option.none) with
  | some err => (err, db)
  | Option.none =>
    match db.users.find? (fun u => u.id == uid) with
    | Option.none => (UploadResult.userNotFound, db)
    | some u =>
      if u.storage_used + size > u.storage_quota then (UploadResult.quotaExceeded, db)
      else
        match blob with
        | BlobOutcome.failure => (UploadResult.uploadFailed, db)
        | BlobOutcome.success =>
            (UploadResult.created newId,
             { db with
                 files := db.files ++
                   [{ id := newId, user_id := uid, folder_id := folder_id,
                      original_name := original_name, mime_type := mime, size := size,
                      is_public := false, public_share_token := Option.none,
                      download_count := 0 }],
                 users := updateUsed db.users uid size })

/-- Response outcome of DELETE /:fileId. -/
inductive DeleteResult
  | notFoundOrDenied
  | insufficientPermission
  | deleted
deriving DecidableEq, Repr

/-- DELETE /:fileId (files.js lines 413-454). The Backblaze deletion is
wrapped in its own try/catch whose failure is only logged (lines 435-439),
so the row deletion and the storage_used decrement run for either blob
outcome; the blob parameter is therefore unused. -/
def deleteFile (db : Db) (uid fileId : Nat) (_blob : BlobOutcome) : DeleteResult × Db :=
  match sqlGetFile db uid fileId with
  | Option.none => (DeleteResult.notFoundOrDenied, db)
  | some (f, lvl) =>
    if !(lvl == some AccessLevel.owner) && !(lvl == some AccessLevel.edit) then
      (DeleteResult.insufficientPermission, db)
    else
      (DeleteResult.deleted,
       { db with files := db.files.filter (fun g => !(g.id == fileId)),
                 users := updateUsed db.users f.user_id (-f.size) })

/-- SELECT COALESCE(SUM(size), 0) FROM files WHERE user_id = $1
(files.js lines 1334-1339). -/
def actualUsed (db : Db) (uid : Nat) : Int :=
  (db.files.filter (fun f => f.user_id == uid)).foldl (fun s f => s + f.size) 0

/-- The reconciliation slice of GET /stats (files.js lines 1321-1347): read
quota and used, recompute the true sum of the caller's file sizes, and
rewrite storage_used when the stored value differs. Returns the reported
(quota, used) pair and the possibly corrected store. -/
def storageStats (db : Db) (uid : Nat) : Option (Int × Int) × Db :=
  match db.users.find? (fun u => u.id == uid) with
  | Option.none => (Option.none, db)
  | some u =>
    (some (u.storage_quota, actualUsed db uid),
     if actualUsed db uid ≠ u.storage_used then
       { db with users := db.users.map (fun v =>
           if v.id == uid then { v with storage_used := actualUsed db uid } else v) }
     else db)

/-- One upload or single-file delete request with its blob outcome. -/
inductive FileOp
  | upload (uid : Nat) (folder_id : Option Nat) (newId : Nat)
      (original_name mime : String) (size : Int) (blob : BlobOutcome)
  | delete (uid fileId : Nat) (blob : BlobOutcome)
deriving Repr

/-- The store after serving one request. -/
def applyOp (db : Db) : FileOp → Db
  | FileOp.upload uid folder_id newId nm mm size blob =>
      (uploadFile db uid folder_id newId nm mm size blob).2
  | FileOp.delete uid fileId blob => (deleteFile db uid fileId blob).2

/-- The store after serving a sequence of requests. -/
def applyOps (db : Db) (ops : List FileOp) : Db :=
  ops.foldl applyOp db

/-- Truth of the WHERE clause (f.user_id = $1 OR p.shared_with_user_id = $1)
for one file row: owner, or some grant on its containing folder. -/
def fileVisible (perms : List PermissionRow) (f : FileRow) (uid : Nat) : Bool :=
  f.user_id == uid ||
    (match f.folder_id with
     | some fid => (grantFor perms fid uid).isSome
     | Option.none => false)

/-- The file-deletion loop of DELETE /folders/bulk/mixed (part_002 lines
307-340): the visible requested files with owner or edit access each get a
blob delete attempt (failures swallowed) and a row deletion; unlike
DELETE /files/:fileId, no UPDATE of users.storage_used appears anywhere in
this loop. -/
def mixedBulkDeleteFiles (db : Db) (uid : Nat) (fileIds : List Nat) : Db :=
  ((db.files.filter (fun f => fileIds.contains f.id && fileVisible db.permissions f uid)).filter
      (fun f => fileAccess db.permissions f uid == AccessLevel.owner
        || fileAccess db.permissions f uid == AccessLevel.edit)).foldl
    (fun acc f => { acc with files := acc.files.filter (fun g => !(g.id == f.id)) }) db

/-- The cached descriptor of a public share (files.js lines 867-874). -/
structure ShareData where
  fileId : Nat
  fileName : String
  mimeType : String
  size : Int
  ownerId : Nat
deriving DecidableEq, Repr

/-- Store plus the Redis cache of public-share descriptors, keyed by the
public:token key strings. -/
structure Sys where
  db : Db
  cache : List (String × ShareData)
deriving DecidableEq, Repr

/-- redisService.get. -/
def cacheGet (c : List (String × ShareData)) (k : String) : Option ShareData :=
  (c.find? (fun e => e.1 == k)).map (fun e => e.2)

/-- redisService.set (overwrites the key). -/
def cacheSet (c : List (String × ShareData)) (k : String) (v : ShareData) :
    List (String × ShareData) :=
  (k, v) :: c.filter (fun e => !(e.1 == k))

/-- redisService.del. -/
def cacheDel (c : List (String × ShareData)) (k : String) : List (String × ShareData) :=
  c.filter (fun e => !(e.1 == k))

/-- Response outcome of DELETE /:fileId/share. -/
inductive RevokeResult
  | notFoundOrDenied
  | revoked
deriving DecidableEq, Repr

/-- DELETE /:fileId/share (files.js lines 1279-1310): only the file's owner
may revoke; the row's token is cleared and is_public set false, then the
public:token cache key is deleted (guarded by the token string's JS
truthiness). -/
def revokeShare (s : Sys) (uid fileId : Nat) : RevokeResult × Sys :=
  match s.db.files.find? (fun f => f.id == fileId && f.user_id == uid) with
  | Option.none => (RevokeResult.notFoundOrDenied, s)
  | some f =>
    (RevokeResult.revoked,
     { db := { s.db with files := s.db.files.map (fun g =>
         if g.id == fileId then
           { g with public_share_token := Option.none, is_public := false }
         else g) },
       cache :=
         match f.public_share_token with
         | some t => if t == "" then s.cache else cacheDel s.cache ("public:" ++ t)
         | Option.none => s.cache })

/-- UPDATE files SET download_count = download_count + 1 WHERE id = $1. -/
def incrementDownload (files : List FileRow) (fid : Nat) : List FileRow :=
  files.map (fun f =>
    if f.id == fid then { f with download_count := f.download_count + 1 } else f)

/-- Response outcome of GET /public/:shareToken as far as resolution goes. -/
inductive PublicAccessResult
  | notFound
  | ok (d : ShareData)
deriving DecidableEq, Repr

/-- The descriptor built from a file row for caching and serving (files.js
lines 910-917). -/
def shareDataOf (f : FileRow) : ShareData :=
  { fileId := f.id, fileName := f.original_name, mimeType := f.mime_type,
    size := f.size, ownerId := f.user_id }

/-- Tail of GET /public/:shareToken once a descriptor is at hand (files.js
lines 923-932): bump the download counter, then re-read the row by id and
404 when it is gone. -/
def servePublic (s : Sys) (d : ShareData) : PublicAccessResult × Sys :=
  match (incrementDownload s.db.files d.fileId).find? (fun f => f.id == d.fileId) with
  | Option.none =>
      (PublicAccessResult.notFound, { s with db := { s.db with files := incrementDownload s.db.files d.fileId } })
  | some _ =>
      (PublicAccessResult.ok d, { s with db := { s.db with files := incrementDownload s.db.files d.fileId } })

/-- GET /public/:shareToken resolution (files.js lines 891-921): the cache is
consulted first; on a miss the store is queried with is_public = TRUE and the
descriptor re-cached; a miss in both yields the 404. -/
def getPublicShare (s : Sys) (token : String) : PublicAccessResult × Sys :=
  match cacheGet s.cache ("public:" ++ token) with
  | some d => servePublic s d
  | Option.none =>
    match s.db.files.find? (fun f => f.public_share_token == some token && f.is_public) with
    | Option.none => (PublicAccessResult.notFound, s)
    | some f =>
        servePublic
          { s with cache := cacheSet s.cache ("public:" ++ token) (shareDataOf f) }
          (shareDataOf f)

/-- code.toUpperCase() on the embedded strings. -/
def strUpper (s : String) : String :=
  String.mk (s.data.map Char.toUpper)

/-- The WHERE clause of the coupon lookup (files.js lines 1460-1466):
active, unexpired at the current time, and below its use cap. -/
def couponSelectable (now : Int) (c : CouponRow) : Bool :=
  c.is_active
    && (match c.expires_at with
        | Option.none => true
        | some e => decide (e > now))
    && decide (c.current_uses < c.max_uses)

/-- Response outcome of POST /redeem-coupon. -/
inductive RedeemResult
  | missingCode
  | invalidOrExpired
  | alreadyRedeemed
  | redeemed (bonus : Int)
deriving DecidableEq, Repr

/-- POST /redeem-coupon (files.js lines 1447-1529), one transaction: select a
valid coupon by uppercased code, reject when a redemption row for (user,
coupon) exists, otherwise credit the quota, insert the redemption row and
bump current_uses. -/
def redeemCoupon (db : Db) (uid : Nat) (code : String) (now : Int) : RedeemResult × Db :=
  if code == "" then (RedeemResult.missingCode, db)
  else
    match db.coupons.find? (fun d => d.code == strUpper code && couponSelectable now d) with
    | Option.none => (RedeemResult.invalidOrExpired, db)
    | some c =>
      if db.coupon_redemptions.any (fun r => r.user_id == uid && r.coupon_id == c.id) then
        (RedeemResult.alreadyRedeemed, db)
      else
        (RedeemResult.redeemed c.storage_bonus,
         { db with
             users := db.users.map (fun u =>
               if u.id == uid then { u with storage_quota := u.storage_quota + c.storage_bonus }
               else u),
             coupon_redemptions := db.coupon_redemptions ++
               [{ user_id := uid, coupon_id := c.id, storage_granted := c.storage_bonus }],
             coupons := db.coupons.map (fun d =>
               if d.id == c.id then { d with current_uses := d.current_uses + 1 } else d) })

/-- Content-Disposition value classes. -/
inductive Disposition
  | inlineDisp
  | attachmentDisp
deriving DecidableEq, Repr

/-- Character-level prefix test (the embedded mimeType.startsWith). -/
def charsBeginWith : List Char → List Char → Bool
  | [], _ => true
  | _ :: _, [] => false
  | a :: as, b :: bs => a == b && charsBeginWith as bs

/-- mimeType.startsWith(p). -/
def strBeginsWith (s p : String) : Bool :=
  charsBeginWith p.data s.data

/-- GET /:fileId/download sets Content-Disposition: attachment for every
file, with no check of the MIME type (files.js line 567). -/
def downloadDisposition (_mime : String) : Disposition :=
  Disposition.attachmentDisp

/-- GET /public/:shareToken disposition (files.js lines 941-948): inline for
image/*, video/* and exactly application/pdf, attachment otherwise. -/
def publicShareDisposition (mime : String) : Disposition :=
  if strBeginsWith mime "image/" || strBeginsWith mime "video/"
      || mime == "application/pdf"
  then Disposition.inlineDisp
  else Disposition.attachmentDisp

/-- GET /:fileId/view sets Content-Disposition: inline only under the class
check of files.js line 802 (startsWith image/ or video/, or exactly
application/pdf); no disposition header is set otherwise on this route. -/
def viewDisposition (mime : String) : Option Disposition :=
  if strBeginsWith mime "image/" || strBeginsWith mime "video/"
      || mime == "application/pdf"
  then some Disposition.inlineDisp
  else Option.none

/-- The reduce over req.files computing the batch's total size
(files.js line 136). -/
def totalUploadSize (sizes : List Int) : Int :=
  sizes.foldl (fun s x => s + x) 0

/-- Digits of toFixed(2) output: h hundredths rendered as a decimal string. -/
def renderHundredths (h : Nat) : String :=
  toString (h / 100) ++ "." ++ (if h % 100 < 10 then "0" else "") ++ toString (h % 100)

/-- Hundredths of bytes/2^20, rounding half up: the decimal seen from
(bytes/(1024*1024)).toFixed(2) at inputs exactly representable in binary64. -/
def mbHundredths (bytes : Nat) : Nat :=
  (200 * bytes + 1048576) / 2097152

/-- Hundredths of bytes/2^30, same rounding, for the GB branch. -/
def gbHundredths (bytes : Nat) : Nat :=
  (200 * bytes + 1073741824) / 2147483648

/-- The formatBytes helper of the upload routes (files.js lines 140-143):
at least 1GB renders in GB, otherwise in MB, both with two decimals. A
negative amount stays in the MB branch (gb >= 1 is false) and carries the
sign. -/
def formatBytes (bytes : Int) : String :=
  if bytes ≥ 1073741824 then renderHundredths (gbHundredths bytes.toNat) ++ "GB"
  else if bytes ≥ 0 then renderHundredths (mbHundredths bytes.toNat) ++ "MB"
  else "-" ++ renderHundredths (mbHundredths (-bytes).toNat) ++ "MB"

/-- The details object of the 413 response of POST /upload/multiple
(files.js lines 145-152): all three figures are formatBytes strings. -/
structure QuotaRejection where
  totalUploadSize : String
  availableSpace : String
  quotaLimit : String
deriving DecidableEq, Repr

/-- Outcome of the storage-quota admission check of POST /upload/multiple. -/
inductive MultiUploadAdmission
  | rejected (details : QuotaRejection)
  | admitted
deriving DecidableEq, Repr

/-- The quota admission of POST /upload/multiple (files.js lines 135-153):
the persisted used value plus the batch's aggregate size is compared against
the quota; on overflow the 413 details are built with formatBytes. -/
def uploadMultipleAdmission (storage_used storage_quota : Int) (sizes : List Int) :
    MultiUploadAdmission :=
  if storage_used + totalUploadSize sizes > storage_quota then
    MultiUploadAdmission.rejected
      { totalUploadSize := formatBytes (totalUploadSize sizes),
        availableSpace := formatBytes (storage_quota - storage_used),
        quotaLimit := formatBytes storage_quota }
  else MultiUploadAdmission.admitted

/-- Example database for the C2 counterexample: folder 1 belongs to user 1,
file 10 inside folder 1 belongs to user 2, and folder 1 is shared with user 2
at view level (the situation after user 2 uploaded into the shared folder). -/
def exDbC2 : Db :=
  { users := [], folders := [⟨1, 1, Option.none⟩],
    files := [⟨10, 2, some 1, "x.txt", "text/plain", 4, false, Option.none, 0⟩],
    permissions := [⟨1, 2, PermissionType.view⟩], coupons := [], coupon_redemptions := [] }

/-- Example database for the C2 witness: user 1 owns parent folder 1 and
child folder 2; user 4 owns file 10 inside folder 1 and rootless file 11;
folder 1 (only) is shared with user 2 at view level. -/
def exDbC2w : Db :=
  { users := [], folders := [⟨1, 1, Option.none⟩, ⟨2, 1, some 1⟩],
    files := [⟨10, 4, some 1, "x.txt", "text/plain", 4, false, Option.none, 0⟩,
              ⟨11, 4, Option.none, "y.txt", "text/plain", 4, false, Option.none, 0⟩],
    permissions := [⟨1, 2, PermissionType.view⟩], coupons := [], coupon_redemptions := [] }

/-- Example database for the C4 counterexample: user 1 has 10 bytes recorded
as used, all of them in file 5. -/
def exDbC4 : Db :=
  { users := [⟨1, 100, 10⟩], folders := [],
    files := [⟨5, 1, Option.none, "a.txt", "text/plain", 10, false, Option.none, 0⟩],
    permissions := [], coupons := [], coupon_redemptions := [] }

/-- Example database for the C5 witness: user 1 with an empty store. -/
def exDbC5 : Db :=
  { users := [⟨1, 1000, 0⟩], folders := [], files := [], permissions := [],
    coupons := [], coupon_redemptions := [] }

/-- Example request sequence for the C5 witness: two uploads and one delete
by user 1. -/
def exOpsC5 : List FileOp :=
  [FileOp.upload 1 Option.none 5 "a.txt" "text/plain" 100 BlobOutcome.success,
   FileOp.upload 1 Option.none 6 "b.txt" "text/plain" 50 BlobOutcome.success,
   FileOp.delete 1 5 BlobOutcome.failure]

/-- Example system for the C6 witness: user 1 owns public file 5 whose share
descriptor is sitting in the cache under its token key. -/
def exSysC6 : Sys :=
  { db :=
      { users := [], folders := [],
        files := [⟨5, 1, Option.none, "a.png", "image/png", 3, true, some "tok", 0⟩],
        permissions := [], coupons := [], coupon_redemptions := [] },
    cache := [("public:tok", ⟨5, "a.png", "image/png", 3, 1⟩)] }

/-- Example database for the C7 counterexample: a single-use coupon A worth
5 bytes of quota, not yet used. -/
def exDbC7 : Db :=
  { users := [⟨1, 10, 0⟩], folders := [], files := [], permissions := [],
    coupons := [⟨1, "A", "promo", true, Option.none, 1, 0, 5⟩], coupon_redemptions := [] }

/-- Example database for the C7 witness: as exDbC7 but with two allowed
uses, so the second attempt reaches the redemption check. -/
def exDbC7w : Db :=
  { users := [⟨1, 10, 0⟩], folders := [], files := [], permissions := [],
    coupons := [⟨1, "A", "promo", true, Option.none, 2, 0, 5⟩], coupon_redemptions := [] }

/-- Example database for the C10 drift instance: user 1's 10 recorded bytes
all sit in file 5. -/
def exDbC10 : Db :=
  { users := [⟨1, 100, 10⟩], folders := [],
    files := [⟨5, 1, Option.none, "a.txt", "text/plain", 10, false, Option.none, 0⟩],
    permissions := [], coupons := [], coupon_redemptions := [] }

theorem head?_filter_eq_find? {α : Type} (p : α → Bool) (l : List α) :
    (l.filter p).head? = l.find? p := by
  induction l with
  | nil => rfl
  | cons a tl ih =>
    by_cases h : p a
    · simp [List.filter_cons, h, List.find?]
    · simp only [List.filter_cons, List.find?]
      rw [if_neg (by simp [h]), ih]
      simp [h]

theorem filter_key_eq {α : Type} (l : List α) (key : α → Nat)
    (hpw : l.Pairwise (fun x y => key x ≠ key y)) (a : α) (ha : a ∈ l) :
    l.filter (fun x => key x == key a) = [a] := by
  induction l with
  | nil => cases ha
  | cons b tl ih =>
    rw [List.pairwise_cons] at hpw
    rcases List.mem_cons.mp ha with h | h
    · subst h
      rw [List.filter_cons_of_pos (by simp)]
      have hnil : tl.filter (fun x => key x == key a) = [] := by
        apply List.filter_eq_nil_iff.mpr
        intro x hx
        simp only [beq_iff_eq]
        exact fun hk => hpw.1 x hx hk.symm
      rw [hnil]
    · have hne : key b ≠ key a := hpw.1 a h
      rw [List.filter_cons_of_neg (by simp only [beq_iff_eq]; exact hne)]
      exact ih hpw.2 h

theorem find?_key_eq {α : Type} (l : List α) (key : α → Nat) (q : α → Bool)
    (hpw : l.Pairwise (fun x y => key x ≠ key y)) (a : α) (ha : a ∈ l)
    (hq : q a = true) :
    l.find? (fun x => key x == key a && q x) = some a := by
  induction l with
  | nil => cases ha
  | cons b tl ih =>
    rw [List.pairwise_cons] at hpw
    rcases List.mem_cons.mp ha with h | h
    · subst h
      exact List.find?_cons_of_pos tl (by simp [hq])
    · have hne : key b ≠ key a := hpw.1 a h
      rw [List.find?_cons_of_neg tl (by simp [hne])]
      exact ih hpw.2 h

/-- The single-row SQL pipeline of GET /folders/:folderId agrees with the
compact owner-or-grant resolution. -/
theorem folderAccessLevel_eq_folderAccess (db : Db) (uid : Nat) (F : FolderRow)
    (hmem : F ∈ db.folders)
    (hpw : db.folders.Pairwise (fun a b => a.id ≠ b.id)) :
    folderAccessLevel db uid F.id = folderAccess db.permissions F uid := by
  have hfil : db.folders.filter (fun f => f.id == F.id) = [F] :=
    filter_key_eq db.folders (fun f => f.id) hpw F hmem
  have hkey : sqlGetFolder db uid F.id =
      ((folderPermJoin db.permissions F uid).find? (folderRowVisible uid)).map
        (fun r => (r.1, folderRowCase uid r)) := by
    unfold sqlGetFolder
    rw [hfil, List.flatMap_cons, List.flatMap_nil, List.append_nil, List.head?_map,
        head?_filter_eq_find?]
  unfold folderAccessLevel
  rw [hkey]
  rcases hms : db.permissions.filter
      (fun p => p.folder_id == F.id && p.shared_with_user_id == uid) with _ | ⟨p, rest⟩
  · have hjoin : folderPermJoin db.permissions F uid = [(F, Option.none)] := by
      unfold folderPermJoin
      rw [hms]
    have hfind : grantFor db.permissions F.id uid = Option.none := by
      unfold grantFor
      rw [← head?_filter_eq_find?, hms]
      rfl
    rw [hjoin]
    by_cases how : F.user_id = uid
    · simp [folderRowVisible, folderRowCase, folderAccess, how]
    · simp [folderRowVisible, folderRowCase, folderAccess, how, hfind]
  · have hjoin : folderPermJoin db.permissions F uid
        = (p :: rest).map (fun q => (F, some q)) := by
      unfold folderPermJoin
      rw [hms]
    have hfind : grantFor db.permissions F.id uid = some p := by
      unfold grantFor
      rw [← head?_filter_eq_find?, hms]
      rfl
    have hpshared : p.shared_with_user_id = uid := by
      have hpm : p ∈ db.permissions.filter
          (fun q => q.folder_id == F.id && q.shared_with_user_id == uid) := by
        rw [hms]
        exact List.mem_cons_self p rest
      have hq := (List.mem_filter.mp hpm).2
      simp only [Bool.and_eq_true, beq_iff_eq] at hq
      exact hq.2
    rw [hjoin, List.find?_map,
        List.find?_cons_of_pos rest (by simp [Function.comp, folderRowVisible, hpshared])]
    by_cases how : F.user_id = uid
    · simp [folderRowCase, folderAccess, how, hfind]
    · simp [folderRowCase, folderAccess, how, hfind]

/-- The single-row SQL pipeline of the file routes agrees with the compact
file access resolution. -/
theorem fileAccessLevel_eq_fileAccess (db : Db) (uid : Nat) (F : FileRow)
    (hmem : F ∈ db.files)
    (hpw : db.files.Pairwise (fun a b => a.id ≠ b.id)) :
    fileAccessLevel db uid F.id = fileAccess db.permissions F uid := by
  have hfil : db.files.filter (fun f => f.id == F.id) = [F] :=
    filter_key_eq db.files (fun f => f.id) hpw F hmem
  have hkey : sqlGetFile db uid F.id =
      ((filePermJoin db.permissions F uid).find? (fileRowVisible uid)).map
        (fun r => (r.1, fileRowCase uid r)) := by
    unfold sqlGetFile
    rw [hfil, List.flatMap_cons, List.flatMap_nil, List.append_nil, List.head?_map,
        head?_filter_eq_find?]
  unfold fileAccessLevel
  rw [hkey]
  rcases hms : db.permissions.filter
      (fun p => F.folder_id == some p.folder_id && p.shared_with_user_id == uid) with _ | ⟨p, rest⟩
  · have hjoin : filePermJoin db.permissions F uid = [(F, Option.none)] := by
      unfold filePermJoin
      rw [hms]
    rw [hjoin]
    by_cases how : F.user_id = uid
    · simp [fileRowVisible, fileRowCase, fileAccess, how]
    · rcases hfid : F.folder_id with _ | fid
      · simp [fileRowVisible, fileRowCase, fileAccess, how, hfid]
      · have hfind : grantFor db.permissions fid uid = Option.none := by
          unfold grantFor
          apply List.find?_eq_none.mpr
          intro q hq hc
          have hq2 : (F.folder_id == some q.folder_id && q.shared_with_user_id == uid) = true := by
            simp only [Bool.and_eq_true, beq_iff_eq] at hc ⊢
            exact ⟨by rw [hfid, hc.1], hc.2⟩
          have hqf : q ∈ db.permissions.filter
              (fun p => F.folder_id == some p.folder_id && p.shared_with_user_id == uid) :=
            List.mem_filter.mpr ⟨hq, hq2⟩
          rw [hms] at hqf
          cases hqf
        simp [fileRowVisible, fileRowCase, fileAccess, how, hfid, hfind]
  · have hjoin : filePermJoin db.permissions F uid = (p :: rest).map (fun q => (F, some q)) := by
      unfold filePermJoin
      rw [hms]
    have hpm : p ∈ db.permissions.filter
        (fun q => F.folder_id == some q.folder_id && q.shared_with_user_id == uid) := by
      rw [hms]
      exact List.mem_cons_self p rest
    have hp := (List.mem_filter.mp hpm).2
    simp only [Bool.and_eq_true, beq_iff_eq] at hp
    rcases hfid : F.folder_id with _ | fid
    · rw [hfid] at hp
      exact absurd hp.1 (by simp)
    · rw [hfid] at hp
      have hpfid : p.folder_id = fid := by
        have hinj := hp.1
        injection hinj with h
        exact h.symm
      have hfind : grantFor db.permissions fid uid = some p := by
        unfold grantFor
        rw [← head?_filter_eq_find?]
        have hsame : db.permissions.filter
              (fun q => q.folder_id == fid && q.shared_with_user_id == uid)
            = db.permissions.filter
              (fun q => F.folder_id == some q.folder_id && q.shared_with_user_id == uid) := by
          apply List.filter_congr
          intro q _
          rw [hfid]
          by_cases hqf : q.folder_id = fid
          · simp [hqf]
          · have h2 : ((some fid == some q.folder_id) : Bool) = false :=
              beq_eq_false_iff_ne.mpr (by intro hc; exact hqf (Option.some.inj hc).symm)
            rw [beq_eq_false_iff_ne.mpr hqf, h2]
        rw [hsame, hms]
        rfl
      rw [hjoin, List.find?_map,
          List.find?_cons_of_pos rest (by simp [Function.comp, fileRowVisible, hp.2])]
      by_cases how : F.user_id = uid
      · simp [fileRowCase, fileAccess, how, hfid, hfind]
      · simp [fileRowCase, fileAccess, how, hfid, hfind]

/-- A stored grant level never reads as owner. -/
theorem toAccess_ne_owner (p : PermissionType) : p.toAccess ≠ AccessLevel.owner := by
  cases p <;> simp [PermissionType.toAccess]

/-- C1. For every folder F and caller C, the resolved access level is `owner`
if and only if F's owner (user_id) is C; otherwise it is the permission_type
of the stored grant row keyed by (F, C), or `none` (the route's denial) when
no such row exists. -/
theorem c1_folder_access_resolution (db : Db) (uid : Nat) (F : FolderRow)
    (hmem : F ∈ db.folders)
    (hpw : db.folders.Pairwise (fun a b => a.id ≠ b.id)) :
    (folderAccessLevel db uid F.id = AccessLevel.owner ↔ F.user_id = uid)
    ∧ (F.user_id ≠ uid →
        folderAccessLevel db uid F.id =
          (match grantFor db.permissions F.id uid with
           | some p => p.permission_type.toAccess
           | Option.none => AccessLevel.none)) := by
  rw [folderAccessLevel_eq_folderAccess db uid F hmem hpw]
  unfold folderAccess
  constructor
  · by_cases how : F.user_id = uid
    · simp [how]
    · rw [if_neg (by simpa using how)]
      constructor
      · intro h
        exfalso
        rcases hg : grantFor db.permissions F.id uid with _ | p
        · rw [hg] at h; cases h
        · rw [hg] at h; exact toAccess_ne_owner p.permission_type h
      · intro h; exact absurd h how
  · intro how
    rw [if_neg (by simpa using how)]

/-- Closed instance of C1: owner, grantee, and stranger each resolve as the
claim states on a two-folder database. -/
theorem c1_witness :
    (let db : Db :=
      { users := [], folders := [⟨1, 1, Option.none⟩, ⟨2, 1, some 1⟩], files := [],
        permissions := [⟨1, 2, PermissionType.view⟩], coupons := [], coupon_redemptions := [] }
     folderAccessLevel db 1 1 = AccessLevel.owner
     ∧ folderAccessLevel db 2 1 = AccessLevel.view
     ∧ folderAccessLevel db 3 1 = AccessLevel.none) := by
  have h1 := c1_folder_access_resolution
    { users := [], folders := [⟨1, 1, Option.none⟩, ⟨2, 1, some 1⟩], files := [],
      permissions := [⟨1, 2, PermissionType.view⟩], coupons := [], coupon_redemptions := [] }
    1 ⟨1, 1, Option.none⟩ (by decide) (by decide)
  have h2 := c1_folder_access_resolution
    { users := [], folders := [⟨1, 1, Option.none⟩, ⟨2, 1, some 1⟩], files := [],
      permissions := [⟨1, 2, PermissionType.view⟩], coupons := [], coupon_redemptions := [] }
    2 ⟨1, 1, Option.none⟩ (by decide) (by decide)
  have h3 := c1_folder_access_resolution
    { users := [], folders := [⟨1, 1, Option.none⟩, ⟨2, 1, some 1⟩], files := [],
      permissions := [⟨1, 2, PermissionType.view⟩], coupons := [], coupon_redemptions := [] }
    3 ⟨1, 1, Option.none⟩ (by decide) (by decide)
  refine ⟨h1.1.mpr rfl, ?_, ?_⟩
  · rw [h2.2 (by decide)]; decide
  · rw [h3.2 (by decide)]; decide

/-- C2, counterexample. The claim says the effective permission on every file
directly inside F equals the effective permission on F, never escalated. On
`exDbC2`, caller 2 holds only a view grant on folder 1, yet resolves file 10
(which caller 2 owns) as owner: the file routes short circuit on the file's
own user_id, escalating above the folder grant. -/
theorem c2_counterexample_file_owner_escalation :
    fileAccessLevel exDbC2 2 10 = AccessLevel.owner
    ∧ folderAccessLevel exDbC2 2 1 = AccessLevel.view
    ∧ AccessLevel.owner ≠ AccessLevel.view := by decide

/-- C2, amended. For callers owning neither the file nor its containing
folder, the effective permission on a file directly inside folder F equals
the effective permission on F (the folder's stored grant, or none); a grant
confers nothing on a child folder, whose access is resolved from its own
grant row alone; and a file with no containing folder resolves to none for
every caller other than its owner. -/
theorem c2_file_access_follows_folder_grant (db : Db) (uid : Nat)
    (hfo : db.folders.Pairwise (fun a b => a.id ≠ b.id))
    (hfi : db.files.Pairwise (fun a b => a.id ≠ b.id)) :
    (∀ fl ∈ db.files, ∀ F ∈ db.folders, fl.folder_id = some F.id →
        fl.user_id ≠ uid → F.user_id ≠ uid →
        fileAccessLevel db uid fl.id = folderAccessLevel db uid F.id)
    ∧ (∀ G ∈ db.folders, G.user_id ≠ uid →
        folderAccessLevel db uid G.id =
          (match grantFor db.permissions G.id uid with
           | some p => p.permission_type.toAccess
           | Option.none => AccessLevel.none))
    ∧ (∀ fl ∈ db.files, fl.folder_id = Option.none → fl.user_id ≠ uid →
        fileAccessLevel db uid fl.id = AccessLevel.none) := by
  refine ⟨?_, ?_, ?_⟩
  · intro fl hfl F hF hinside hflo hFo
    rw [fileAccessLevel_eq_fileAccess db uid fl hfl hfi,
        folderAccessLevel_eq_folderAccess db uid F hF hfo]
    unfold fileAccess folderAccess
    rw [if_neg (by simpa using hflo), if_neg (by simpa using hFo), hinside]
  · intro G hG hGo
    rw [folderAccessLevel_eq_folderAccess db uid G hG hfo]
    unfold folderAccess
    rw [if_neg (by simpa using hGo)]
  · intro fl hfl hroot hflo
    rw [fileAccessLevel_eq_fileAccess db uid fl hfl hfi]
    unfold fileAccess
    rw [if_neg (by simpa using hflo), hroot]

/-- Closed instance of the amended C2 on `exDbC2w` for caller 2. -/
theorem c2_witness :
    fileAccessLevel exDbC2w 2 10 = folderAccessLevel exDbC2w 2 1
    ∧ folderAccessLevel exDbC2w 2 2 = AccessLevel.none
    ∧ fileAccessLevel exDbC2w 2 11 = AccessLevel.none := by
  have h := c2_file_access_follows_folder_grant exDbC2w 2 (by decide) (by decide)
  refine ⟨?_, ?_, ?_⟩
  · exact h.1 ⟨10, 4, some 1, "x.txt", "text/plain", 4, false, Option.none, 0⟩ (by decide)
      ⟨1, 1, Option.none⟩ (by decide) rfl (by decide) (by decide)
  · rw [h.2.1 ⟨2, 1, some 1⟩ (by decide) (by decide)]
    decide
  · exact h.2.2 ⟨11, 4, Option.none, "y.txt", "text/plain", 4, false, Option.none, 0⟩
      (by decide) rfl (by decide)

/-- C3. With persisted used u and quota q, a batch of total size s is admitted
if and only if u + s ≤ q; the check is on the aggregate of the whole batch,
so a batch whose aggregate exceeds remaining capacity is rejected even when
every single file would fit on its own. -/
theorem c3_batch_admission_iff (u q : Int) (sizes : List Int) :
    (uploadMultipleAdmission u q sizes = MultiUploadAdmission.admitted
      ↔ u + totalUploadSize sizes ≤ q)
    ∧ (u + totalUploadSize sizes > q →
        uploadMultipleAdmission u q sizes ≠ MultiUploadAdmission.admitted) := by
  constructor
  · unfold uploadMultipleAdmission
    by_cases h : u + totalUploadSize sizes > q
    · rw [if_pos h]
      constructor
      · intro hc
        exact MultiUploadAdmission.noConfusion hc
      · intro hc
        exact absurd h (by omega)
    · rw [if_neg h]
      constructor
      · intro _
        omega
      · intro _
        rfl
  · intro h hc
    unfold uploadMultipleAdmission at hc
    rw [if_pos h] at hc
    exact MultiUploadAdmission.noConfusion hc

/-- Closed instance of C3: with quota 100 and nothing used, a batch of 40+50
is admitted, while a batch of two 60-byte files, each of which would fit on
its own, is rejected because its aggregate 120 exceeds capacity. -/
theorem c3_witness :
    (uploadMultipleAdmission 0 100 [40, 50] = MultiUploadAdmission.admitted
      ↔ (0 : Int) + totalUploadSize [40, 50] ≤ 100)
    ∧ uploadMultipleAdmission 0 100 [60, 60] ≠ MultiUploadAdmission.admitted :=
  ⟨(c3_batch_admission_iff 0 100 [40, 50]).1,
   (c3_batch_admission_iff 0 100 [60, 60]).2 (by decide)⟩

/-- C9, counterexample. In the scenario quota 1,000,000, used 900,000, batch
150,000, the rejection's details are the formatted strings 0.14MB / 0.10MB /
0.95MB, not the byte counts 150000 and 100000 the claim requires. -/
theorem c9_counterexample_formatted_not_bytes :
    uploadMultipleAdmission 900000 1000000 [150000] =
      MultiUploadAdmission.rejected
        { totalUploadSize := "0.14MB", availableSpace := "0.10MB", quotaLimit := "0.95MB" }
    ∧ ("0.10MB" : String) ≠ toString (100000 : Nat)
    ∧ ("0.14MB" : String) ≠ toString (150000 : Nat) := by decide

/-- C9, amended. A rejected batch reports both figures, but as formatBytes
strings derived from the byte values: the requested total formatBytes(s) and
the remaining capacity formatBytes(q - u), alongside formatBytes(q). -/
theorem c9_rejection_reports_formatted (u q : Int) (sizes : List Int)
    (h : u + totalUploadSize sizes > q) :
    uploadMultipleAdmission u q sizes =
      MultiUploadAdmission.rejected
        { totalUploadSize := formatBytes (totalUploadSize sizes),
          availableSpace := formatBytes (q - u),
          quotaLimit := formatBytes q } := by
  unfold uploadMultipleAdmission
  rw [if_pos h]

/-- Closed instance of the amended C9 at the claim's scenario: available
100,000 bytes renders as 0.10MB and requested 150,000 bytes as 0.14MB. -/
theorem c9_witness :
    (900000 : Int) + totalUploadSize [150000] > 1000000
    ∧ uploadMultipleAdmission 900000 1000000 [150000] =
        MultiUploadAdmission.rejected
          { totalUploadSize := "0.14MB", availableSpace := "0.10MB", quotaLimit := "0.95MB" } :=
  ⟨by decide,
    (c9_rejection_reports_formatted 900000 1000000 [150000] (by decide)).trans (by decide)⟩

/-- C4, counterexample. The claim says that when the blob deletion fails
during a file delete, used is not decremented. On exDbC4, deleting file 5
with a failing blob deletion still reports success and decrements user 1's
storage_used from 10 to 0: the route swallows the Backblaze error and
commits anyway. -/
theorem c4_counterexample_decrement_despite_blob_failure :
    (deleteFile exDbC4 1 5 BlobOutcome.failure).1 = DeleteResult.deleted
    ∧ usedOf exDbC4 1 = some 10
    ∧ usedOf (deleteFile exDbC4 1 5 BlobOutcome.failure).2 1 = some 0 := by decide

/-- C4, amended. On upload the +size commit happens only after the blob
store succeeded: a failed blob upload leaves the store untouched. On delete,
however, the blob deletion failure is swallowed: the row removal and the
-size commit proceed identically for either blob outcome. -/
theorem c4_commit_follows_blob (db : Db) (uid : Nat) :
    (∀ (folder_id : Option Nat) (newId : Nat) (nm mm : String) (size : Int),
        (uploadFile db uid folder_id newId nm mm size BlobOutcome.failure).2 = db)
    ∧ (∀ fileId : Nat,
        deleteFile db uid fileId BlobOutcome.failure
          = deleteFile db uid fileId BlobOutcome.success) := by
  constructor
  · intro folder_id newId nm mm size
    unfold uploadFile
    split
    · rfl
    · split
      · rfl
      · split
        · rfl
        · rfl
  · intro fileId
    rfl

theorem foldl_delete_users (l : List FileRow) (db : Db) :
    (l.foldl (fun acc f => { acc with files := acc.files.filter (fun g => !(g.id == f.id)) })
        db).users = db.users := by
  induction l generalizing db with
  | nil => rfl
  | cons f tl ih =>
    rw [List.foldl_cons]
    exact ih _

/-- C10. The file-deletion loop of the mixed bulk-delete endpoint never
touches users.storage_used: the users table is returned unchanged for every
input. On the concrete exDbC10, the loop removes file 5 yet leaves used at
10 against a true sum of 0 (whereas the single-file delete path decrements
to 0), and the stats reconciliation afterwards rewrites used to 0. -/
theorem c10_mixed_bulk_delete_frame :
    (∀ (db : Db) (uid : Nat) (fileIds : List Nat),
        (mixedBulkDeleteFiles db uid fileIds).users = db.users)
    ∧ ((mixedBulkDeleteFiles exDbC10 1 [5]).files = []
       ∧ usedOf (mixedBulkDeleteFiles exDbC10 1 [5]) 1 = some 10
       ∧ actualUsed (mixedBulkDeleteFiles exDbC10 1 [5]) 1 = 0
       ∧ usedOf (deleteFile exDbC10 1 5 BlobOutcome.success).2 1 = some 0
       ∧ usedOf (storageStats (mixedBulkDeleteFiles exDbC10 1 [5]) 1).2 1 = some 0) := by
  refine ⟨?_, by decide⟩
  intro db uid fileIds
  unfold mixedBulkDeleteFiles
  exact foldl_delete_users _ _

theorem applyOp_users_shape (db : Db) (op : FileOp) :
    (applyOp db op).users = db.users
    ∨ ∃ x δ, (applyOp db op).users = updateUsed db.users x δ := by
  cases op with
  | upload uid folder_id newId nm mm size blob =>
    simp only [applyOp]
    unfold uploadFile
    split
    · left; rfl
    · split
      · left; rfl
      · split
        · left; rfl
        · split
          · left; rfl
          · right; exact ⟨uid, size, rfl⟩
  | delete uid fileId blob =>
    simp only [applyOp]
    unfold deleteFile
    split
    · left; rfl
    · split
      · left; rfl
      · right; exact ⟨_, _, rfl⟩

theorem exists_user_id_applyOp (db : Db) (op : FileOp) (uid : Nat)
    (h : ∃ u ∈ db.users, u.id = uid) : ∃ u ∈ (applyOp db op).users, u.id = uid := by
  rcases applyOp_users_shape db op with hs | ⟨x, δ, hs⟩
  · rw [hs]; exact h
  · rw [hs]
    obtain ⟨u, hu, hid⟩ := h
    unfold updateUsed
    refine ⟨if u.id == x then { u with storage_used := u.storage_used + δ } else u,
      List.mem_map_of_mem _ hu, ?_⟩
    by_cases hux : u.id == x
    · simp only [if_pos hux]; exact hid
    · simp only [if_neg hux]; exact hid

theorem exists_user_id_applyOps (db : Db) (ops : List FileOp) (uid : Nat)
    (h : ∃ u ∈ db.users, u.id = uid) : ∃ u ∈ (applyOps db ops).users, u.id = uid := by
  induction ops generalizing db with
  | nil => exact h
  | cons op rest ih => exact ih (applyOp db op) (exists_user_id_applyOp db op uid h)

theorem find?_update_map (users : List UserRow) (uid : Nat) (g : UserRow → UserRow)
    (hg : ∀ u, (g u).id = u.id) :
    (users.map (fun v => if v.id == uid then g v else v)).find? (fun u => u.id == uid)
      = (users.find? (fun u => u.id == uid)).map g := by
  induction users with
  | nil => rfl
  | cons u tl ih =>
    by_cases hu : u.id == uid
    · simp only [List.map_cons, if_pos hu]
      have hpos : ((g u).id == uid) = true := by rw [hg]; exact hu
      have h1 : List.find? (fun u => u.id == uid)
          (g u :: tl.map (fun v => if v.id == uid then g v else v)) = some (g u) :=
        List.find?_cons_of_pos _ hpos
      have h2 : List.find? (fun u => u.id == uid) (u :: tl) = some u :=
        List.find?_cons_of_pos _ hu
      rw [h1, h2]
      rfl
    · simp only [List.map_cons, if_neg hu]
      have h1 : List.find? (fun u => u.id == uid)
          (u :: tl.map (fun v => if v.id == uid then g v else v))
          = List.find? (fun u => u.id == uid)
              (tl.map (fun v => if v.id == uid then g v else v)) :=
        List.find?_cons_of_neg _ hu
      have h2 : List.find? (fun u => u.id == uid) (u :: tl)
          = List.find? (fun u => u.id == uid) tl :=
        List.find?_cons_of_neg _ hu
      rw [h1, h2, ih]

/-- C5. After any sequence of uploads and deletes, the stats route leaves the
caller's persisted storage_used equal to the exact sum of the sizes of the
files the caller owns, rewriting it whenever it differed and leaving the
store untouched when it already matched. -/
theorem c5_reconcile_exact_sum (db : Db) (ops : List FileOp) (uid : Nat)
    (h : ∃ u ∈ db.users, u.id = uid) :
    usedOf (storageStats (applyOps db ops) uid).2 uid
        = some (actualUsed (applyOps db ops) uid)
    ∧ (usedOf (applyOps db ops) uid = some (actualUsed (applyOps db ops) uid) →
        (storageStats (applyOps db ops) uid).2 = applyOps db ops) := by
  have h2 : ∃ u ∈ (applyOps db ops).users, u.id = uid :=
    exists_user_id_applyOps db ops uid h
  set db2 := applyOps db ops with hdb2
  obtain ⟨u0, hu0, hid0⟩ := h2
  rcases hfind : db2.users.find? (fun u => u.id == uid) with _ | u
  · exfalso
    have hnone := List.find?_eq_none.mp hfind u0 hu0
    simp [hid0] at hnone
  · have hss : storageStats db2 uid
        = (some (u.storage_quota, actualUsed db2 uid),
           if actualUsed db2 uid ≠ u.storage_used then
             { db2 with users := db2.users.map (fun v =>
                 if v.id == uid then { v with storage_used := actualUsed db2 uid } else v) }
           else db2) := by
      unfold storageStats
      rw [hfind]
    constructor
    · rw [hss]
      by_cases hdrift : actualUsed db2 uid ≠ u.storage_used
      · simp only [if_pos hdrift]
        unfold usedOf
        rw [find?_update_map db2.users uid
              (fun v => { v with storage_used := actualUsed db2 uid }) (fun v => rfl),
            hfind]
        rfl
      · simp only [if_neg hdrift]
        have heq : actualUsed db2 uid = u.storage_used := not_not.mp hdrift
        unfold usedOf
        rw [hfind, heq]
        rfl
    · intro hused
      unfold usedOf at hused
      rw [hfind] at hused
      have hv : u.storage_used = actualUsed db2 uid := by
        simpa using hused
      rw [hss]
      simp [hv]

/-- Closed instance of C5: two uploads and a delete by user 1, then the
stats reconciliation, leave used equal to the surviving file's size. -/
theorem c5_witness :
    (∃ u ∈ exDbC5.users, u.id = 1)
    ∧ usedOf (storageStats (applyOps exDbC5 exOpsC5) 1).2 1
        = some (actualUsed (applyOps exDbC5 exOpsC5) 1) :=
  ⟨by decide, (c5_reconcile_exact_sum exDbC5 exOpsC5 1 (by decide)).1⟩

theorem cacheGet_cacheDel (c : List (String × ShareData)) (k : String) :
    cacheGet (cacheDel c k) k = Option.none := by
  unfold cacheGet cacheDel
  have hfind : (c.filter (fun e => !(e.1 == k))).find? (fun e => e.1 == k) = Option.none := by
    apply List.find?_eq_none.mpr
    intro e he
    have h2 := (List.mem_filter.mp he).2
    simp only [Bool.not_eq_true'] at h2
    simp [h2]
  rw [hfind]
  rfl

/-- C6. Revoking a public share succeeds for the owner, clears the token and
the public flag on the file row (no dangling token), and makes the public
resolver answer NotFound for the old token immediately: the cache entry is
deleted by the revocation and the database fallback re-checks is_public. The
hypotheses only fix ownership, the stored token, and id/token uniqueness;
the cache may hold a descriptor cached arbitrarily recently. -/
theorem c6_revoke_share_resolution (s : Sys) (uid fid : Nat) (F : FileRow) (t : String)
    (hmem : F ∈ s.db.files) (hid : F.id = fid) (hown : F.user_id = uid)
    (htok : F.public_share_token = some t) (hne : t ≠ "")
    (hpw : s.db.files.Pairwise (fun a b => a.id ≠ b.id))
    (huniq : ∀ g ∈ s.db.files, g.public_share_token = some t → g.id = fid) :
    (revokeShare s uid fid).1 = RevokeResult.revoked
    ∧ (getPublicShare (revokeShare s uid fid).2 t).1 = PublicAccessResult.notFound
    ∧ (∀ g ∈ (revokeShare s uid fid).2.db.files, g.id = fid →
        g.is_public = false ∧ g.public_share_token = Option.none) := by
  subst hid
  subst hown
  have hfind : s.db.files.find? (fun f => f.id == F.id && f.user_id == F.user_id) = some F :=
    find?_key_eq s.db.files (fun f => f.id) (fun f => f.user_id == F.user_id) hpw F hmem
      (by simp)
  have hrs : revokeShare s F.user_id F.id =
      (RevokeResult.revoked,
       { db := { s.db with files := s.db.files.map (fun g =>
           if g.id == F.id then
             { g with public_share_token := Option.none, is_public := false }
           else g) },
         cache := cacheDel s.cache ("public:" ++ t) }) := by
    unfold revokeShare
    simp only [hfind, htok]
    rw [if_neg (by simp [hne])]
  have hdb2 : (revokeShare s F.user_id F.id).2.db.files
      = s.db.files.map (fun g =>
          if g.id == F.id then
            { g with public_share_token := Option.none, is_public := false }
          else g) := by
    rw [hrs]
  have hcache2 : (revokeShare s F.user_id F.id).2.cache = cacheDel s.cache ("public:" ++ t) := by
    rw [hrs]
  refine ⟨by rw [hrs], ?_, ?_⟩
  · have hdbmiss : ((revokeShare s F.user_id F.id).2.db.files.find?
        (fun f => f.public_share_token == some t && f.is_public)) = Option.none := by
      rw [hdb2]
      apply List.find?_eq_none.mpr
      intro g hg hc
      simp only [Bool.and_eq_true, beq_iff_eq] at hc
      rcases List.mem_map.mp hg with ⟨g0, hg0, rfl⟩
      by_cases hgid : g0.id == F.id
      · rw [if_pos hgid] at hc
        exact Option.noConfusion hc.1
      · rw [if_neg hgid] at hc
        have hsame := huniq g0 hg0 hc.1
        simp [hsame] at hgid
    unfold getPublicShare
    rw [hcache2, cacheGet_cacheDel, hdbmiss]
  · intro g hg hgid
    rw [hdb2] at hg
    rcases List.mem_map.mp hg with ⟨g0, hg0, rfl⟩
    by_cases hg0id : g0.id == F.id
    · rw [if_pos hg0id]
      exact ⟨rfl, rfl⟩
    · rw [if_neg hg0id] at hgid ⊢
      simp [hgid] at hg0id

/-- Closed instance of C6: file 5's descriptor is freshly cached and resolves
from the cache before revocation; after user 1 revokes, the same token
resolves to NotFound. -/
theorem c6_witness :
    (getPublicShare exSysC6 "tok").1 = PublicAccessResult.ok ⟨5, "a.png", "image/png", 3, 1⟩
    ∧ (revokeShare exSysC6 1 5).1 = RevokeResult.revoked
    ∧ (getPublicShare (revokeShare exSysC6 1 5).2 "tok").1 = PublicAccessResult.notFound := by
  have h := c6_revoke_share_resolution exSysC6 1 5
    ⟨5, 1, Option.none, "a.png", "image/png", 3, true, some "tok", 0⟩ "tok"
    (by decide) rfl rfl rfl (by decide) (by decide) (by decide)
  exact ⟨by decide, h.1, h.2.1⟩

theorem map_eq_self_of {α : Type} (l : List α) (f : α → α) (h : ∀ a ∈ l, f a = a) :
    l.map f = l := by
  induction l with
  | nil => rfl
  | cons a tl ih =>
    rw [List.map_cons, h a (List.mem_cons_self a tl),
        ih (fun b hb => h b (List.mem_cons_of_mem a hb))]

/-- C7, counterexample. The claim says a second redemption of the same
coupon by the same user is rejected with an already-redeemed error. With a
single-use coupon the second attempt fails the current_uses < max_uses
filter first and reports invalid-or-expired instead, though the state is
still left unchanged. -/
theorem c7_counterexample_exhausted_error :
    (redeemCoupon exDbC7 1 "A" 0).1 = RedeemResult.redeemed 5
    ∧ (redeemCoupon (redeemCoupon exDbC7 1 "A" 0).2 1 "A" 0).1
        = RedeemResult.invalidOrExpired
    ∧ RedeemResult.invalidOrExpired ≠ RedeemResult.alreadyRedeemed
    ∧ (redeemCoupon (redeemCoupon exDbC7 1 "A" 0).2 1 "A" 0).2
        = (redeemCoupon exDbC7 1 "A" 0).2 := by decide

/-- C7, amended. The first redemption credits the quota by the coupon's
storage bonus exactly once, records the redemption and bumps the usage
count; any second attempt by the same user leaves the entire store
unchanged and is rejected — with the already-redeemed error exactly when
the coupon still passes the validity filter, and with invalid-or-expired
when the bump (or expiry) has meanwhile invalidated it. -/
theorem c7_redemption_idempotent (db : Db) (uid : Nat) (code : String) (now now2 : Int)
    (c : CouponRow) (pre post : List CouponRow)
    (hsplit : db.coupons = pre ++ c :: post)
    (hcode : c.code = strUpper code)
    (hcodeNe : code ≠ "")
    (hsel : couponSelectable now c = true)
    (hothers : ∀ d, d ∈ pre ∨ d ∈ post → d.code ≠ strUpper code ∧ d.id ≠ c.id)
    (hnored : ∀ r ∈ db.coupon_redemptions, ¬(r.user_id = uid ∧ r.coupon_id = c.id)) :
    (redeemCoupon db uid code now).1 = RedeemResult.redeemed c.storage_bonus
    ∧ quotaOf (redeemCoupon db uid code now).2 uid
        = (quotaOf db uid).map (fun q => q + c.storage_bonus)
    ∧ (redeemCoupon db uid code now).2.coupon_redemptions
        = db.coupon_redemptions ++ [⟨uid, c.id, c.storage_bonus⟩]
    ∧ (redeemCoupon db uid code now).2.coupons
        = pre ++ { c with current_uses := c.current_uses + 1 } :: post
    ∧ (redeemCoupon (redeemCoupon db uid code now).2 uid code now2).2
        = (redeemCoupon db uid code now).2
    ∧ ((redeemCoupon (redeemCoupon db uid code now).2 uid code now2).1
          = RedeemResult.alreadyRedeemed
        ∨ (redeemCoupon (redeemCoupon db uid code now).2 uid code now2).1
          = RedeemResult.invalidOrExpired)
    ∧ ((redeemCoupon (redeemCoupon db uid code now).2 uid code now2).1
          = RedeemResult.alreadyRedeemed
        ↔ couponSelectable now2 { c with current_uses := c.current_uses + 1 } = true) := by
  have hpre1 : ∀ (t : Int), pre.find?
      (fun d => d.code == strUpper code && couponSelectable t d) = Option.none := by
    intro t
    apply List.find?_eq_none.mpr
    intro d hd hc
    simp only [Bool.and_eq_true, beq_iff_eq] at hc
    exact (hothers d (Or.inl hd)).1 hc.1
  have hfind1 : db.coupons.find?
      (fun d => d.code == strUpper code && couponSelectable now d) = some c := by
    rw [hsplit, List.find?_append, hpre1 now, Option.none_or]
    exact List.find?_cons_of_pos post (by simp [hcode, hsel])
  have hred1 : db.coupon_redemptions.any
      (fun r => r.user_id == uid && r.coupon_id == c.id) = false := by
    apply List.any_eq_false.mpr
    intro r hr
    simp only [Bool.and_eq_true, beq_iff_eq]
    exact fun hc => hnored r hr ⟨hc.1, hc.2⟩
  have hr1 : redeemCoupon db uid code now =
      (RedeemResult.redeemed c.storage_bonus,
       { db with
           users := db.users.map (fun u =>
             if u.id == uid then { u with storage_quota := u.storage_quota + c.storage_bonus }
             else u),
           coupon_redemptions := db.coupon_redemptions ++
             [{ user_id := uid, coupon_id := c.id, storage_granted := c.storage_bonus }],
           coupons := db.coupons.map (fun d =>
             if d.id == c.id then { d with current_uses := d.current_uses + 1 } else d) }) := by
    unfold redeemCoupon
    rw [if_neg (by simp [hcodeNe])]
    simp only [hfind1]
    rw [if_neg (by rw [hred1]; simp)]
  have hquota : quotaOf (redeemCoupon db uid code now).2 uid
      = (quotaOf db uid).map (fun q => q + c.storage_bonus) := by
    rw [hr1]
    unfold quotaOf
    rw [find?_update_map db.users uid
          (fun u => { u with storage_quota := u.storage_quota + c.storage_bonus })
          (fun u => rfl)]
    simp only [Option.map_map]
    rfl
  have hcoupons1 : (redeemCoupon db uid code now).2.coupons
      = pre ++ { c with current_uses := c.current_uses + 1 } :: post := by
    rw [hr1]
    show db.coupons.map _ = _
    rw [hsplit, List.map_append, List.map_cons]
    have hprem : pre.map (fun d =>
        if d.id == c.id then { d with current_uses := d.current_uses + 1 } else d) = pre :=
      map_eq_self_of pre _ (by
        intro d hd
        rw [if_neg (by simp [(hothers d (Or.inl hd)).2])])
    have hpostm : post.map (fun d =>
        if d.id == c.id then { d with current_uses := d.current_uses + 1 } else d) = post :=
      map_eq_self_of post _ (by
        intro d hd
        rw [if_neg (by simp [(hothers d (Or.inr hd)).2])])
    rw [hprem, hpostm, if_pos (by simp)]
  have hreds1 : (redeemCoupon db uid code now).2.coupon_redemptions
      = db.coupon_redemptions ++ [⟨uid, c.id, c.storage_bonus⟩] := by
    rw [hr1]
  set db1 := (redeemCoupon db uid code now).2 with hdb1
  by_cases hsel2 : couponSelectable now2 { c with current_uses := c.current_uses + 1 } = true
  · have hfind2 : db1.coupons.find?
        (fun d => d.code == strUpper code && couponSelectable now2 d)
        = some { c with current_uses := c.current_uses + 1 } := by
      rw [hcoupons1, List.find?_append, hpre1 now2, Option.none_or]
      exact List.find?_cons_of_pos post
        (by simp only [Bool.and_eq_true, beq_iff_eq]; exact ⟨hcode, hsel2⟩)
    have hred2 : db1.coupon_redemptions.any
        (fun r => r.user_id == uid && r.coupon_id == c.id) = true := by
      rw [hreds1]
      exact List.any_eq_true.mpr
        ⟨⟨uid, c.id, c.storage_bonus⟩, List.mem_append_right _ (List.mem_singleton.mpr rfl),
         by simp⟩
    have hr2 : redeemCoupon db1 uid code now2
        = (RedeemResult.alreadyRedeemed, db1) := by
      unfold redeemCoupon
      rw [if_neg (by simp [hcodeNe])]
      simp only [hfind2]
      rw [if_pos (by rw [hred2])]
    refine ⟨by rw [hr1], hquota, hreds1, hcoupons1, by rw [hr2], Or.inl (by rw [hr2]),
      ⟨fun _ => hsel2, fun _ => by rw [hr2]⟩⟩
  · have hfind2 : db1.coupons.find?
        (fun d => d.code == strUpper code && couponSelectable now2 d) = Option.none := by
      rw [hcoupons1, List.find?_append, hpre1 now2, Option.none_or]
      rw [List.find?_cons_of_neg post
        (by intro hc; simp only [Bool.and_eq_true, beq_iff_eq] at hc; exact hsel2 hc.2)]
      apply List.find?_eq_none.mpr
      intro d hd hc
      simp only [Bool.and_eq_true, beq_iff_eq] at hc
      exact (hothers d (Or.inr hd)).1 hc.1
    have hr2 : redeemCoupon db1 uid code now2
        = (RedeemResult.invalidOrExpired, db1) := by
      unfold redeemCoupon
      rw [if_neg (by simp [hcodeNe])]
      simp only [hfind2]
    refine ⟨by rw [hr1], hquota, hreds1, hcoupons1, by rw [hr2], Or.inr (by rw [hr2]),
      ⟨fun hc => ?_, fun hc => absurd hc hsel2⟩⟩
    rw [hr2] at hc
    exact RedeemResult.noConfusion hc

/-- Closed instance of the amended C7 on a two-use coupon: the first
redemption succeeds, the second answers already-redeemed and leaves the
store unchanged. -/
theorem c7_witness :
    (redeemCoupon exDbC7w 1 "A" 0).1 = RedeemResult.redeemed 5
    ∧ (redeemCoupon (redeemCoupon exDbC7w 1 "A" 0).2 1 "A" 0).1
        = RedeemResult.alreadyRedeemed
    ∧ (redeemCoupon (redeemCoupon exDbC7w 1 "A" 0).2 1 "A" 0).2
        = (redeemCoupon exDbC7w 1 "A" 0).2 := by
  have h := c7_redemption_idempotent exDbC7w 1 "A" 0 0
    ⟨1, "A", "promo", true, Option.none, 2, 0, 5⟩ [] [] rfl (by decide) (by decide)
    (by decide) (by intro d hd; rcases hd with hd | hd <;> cases hd)
    (by intro r hr; cases hr)
  exact ⟨h.1, h.2.2.2.2.2.2.mpr (by decide), h.2.2.2.2.1⟩

/-- C8, counterexample. The claim says the inline/attachment classification
is identical between authenticated delivery and public-token delivery and
that image types are served inline. The authenticated download route sets
attachment unconditionally, so an image/png file is inline through the
public route but attachment through the authenticated download. -/
theorem c8_counterexample_download_attachment :
    publicShareDisposition "image/png" = Disposition.inlineDisp
    ∧ downloadDisposition "image/png" = Disposition.attachmentDisp
    ∧ Disposition.inlineDisp ≠ Disposition.attachmentDisp := by decide

/-- C8, amended. Public-token delivery serves inline exactly for MIME types
matching image/*, video/* or exactly application/pdf and attachment for all
others; the authenticated download route serves attachment for every type;
the authenticated view route's inline classification coincides with the
public one. -/
theorem c8_disposition_policy (m : String) :
    (publicShareDisposition m = Disposition.inlineDisp
      ↔ (strBeginsWith m "image/" = true ∨ strBeginsWith m "video/" = true
          ∨ m = "application/pdf"))
    ∧ downloadDisposition m = Disposition.attachmentDisp
    ∧ (viewDisposition m = some Disposition.inlineDisp
      ↔ publicShareDisposition m = Disposition.inlineDisp) := by
  refine ⟨?_, rfl, ?_⟩
  · unfold publicShareDisposition
    by_cases h : (strBeginsWith m "image/" || strBeginsWith m "video/"
        || m == "application/pdf") = true
    · rw [if_pos h]
      simp only [Bool.or_eq_true, beq_iff_eq] at h
      simp [or_assoc.mp h]
    · rw [if_neg h]
      simp only [Bool.or_eq_true, beq_iff_eq, not_or] at h
      constructor
      · intro hc
        exact Disposition.noConfusion hc
      · intro hc
        rcases hc with hc | hc | hc
        · exact absurd hc h.1.1
        · exact absurd hc h.1.2
        · exact absurd hc h.2
  · unfold viewDisposition publicShareDisposition
    by_cases h : (strBeginsWith m "image/" || strBeginsWith m "video/"
        || m == "application/pdf") = true
    · rw [if_pos h, if_pos h]
      simp
    · rw [if_neg h, if_neg h]
      constructor
      · intro hc
        exact Option.noConfusion hc
      · intro hc
        exact Disposition.noConfusion hc

end ByteCloud
